import Mathlib

/-!
Verification of the file-selection core of repo2file-cli.

The embedding models, from src/src/main.rs and src/src/default_ignore.rs:
  - candidate paths (std::path::Path) as lists of path components;
  - the globset glob compiler/matcher on the fragment actually used by the
    program: literal characters, the single-character wildcard and the
    multi-character wildcard (globset's default, where the wildcard also
    crosses path separators).  Patterns using character classes, alternation,
    escapes or the recursive wildcard are outside the modelled fragment and
    are treated as failing compilation, as are genuinely malformed patterns;
  - the Cli argument record and the DefaultIgnore table;
  - the decision function should_include, returning none where the Rust
    code panics (the Glob::new(pattern).unwrap() calls);
  - the orchestration of main: the conflicts_with_all rejection at argument
    parsing, the walk over candidate files, output-block writing and the
    optional error log.
-/

/-- Component of a file-system path.  A component is either valid UTF-8 text
or a byte sequence that is not valid UTF-8 (modelling OsStr components on
Unix); a raw component can never be equal to a Rust string. -/
inductive PComp where
  | utf8 (s : String)
  | raw (bytes : List Nat)
deriving DecidableEq, Repr

/-- Model of std::path::Path: the ordered list of its normal components
(relative paths as the directory walker yields them). -/
def RPath : Type := List PComp

instance : DecidableEq RPath := by
  unfold RPath
  infer_instance

/-- Equality test between a path component and a Rust string (the comparison
comp.as_os_str() == d in the source): byte equality, so a non-UTF-8
component never equals a valid string. -/
def compMatches : PComp → String → Bool
  | .utf8 s, t => s = t
  | .raw _, _ => false

/-- Split a character list at every occurrence of the separator, keeping
empty chunks (the behaviour of String::split on a single character). -/
def splitOnChar (c : Char) : List Char → List (List Char)
  | [] => [[]]
  | x :: xs =>
    match splitOnChar c xs with
    | [] => if x = c then [[], []] else [[x]]
    | h :: t => if x = c then [] :: h :: t else (x :: h) :: t

/-- Components of a path given as a string: split on the separator and drop
empty and current-directory chunks, matching the normalisation performed by
Path::components() for relative paths of normal components. -/
def strComponents (s : String) : List String :=
  ((splitOnChar '/' s.toList).map (fun l => String.mk l)).filter
    (fun c => ¬ (c = "" ∨ c = "."))

/-- Model of Path::ends_with(child): the child string's components must be a
suffix of the path's components, compared component-wise (a path-suffix
match, not a substring match). -/
def pathEndsWith (p : RPath) (child : String) : Bool :=
  let f := strComponents child
  f.length ≤ p.length &&
    (List.zip (p.drop (p.length - f.length)) f).all (fun pr => compMatches pr.1 pr.2)

/-- Text of one component, when it is valid UTF-8. -/
def compStr? : PComp → Option String
  | .utf8 s => some s
  | .raw _ => none

/-- Model of Path::to_str(): the textual form of the whole path, available
exactly when every component is valid UTF-8. -/
def pathToStr (p : RPath) : Option String :=
  (p.mapM compStr?).map (fun cs => String.intercalate "/" cs)

/-- Lossy display of one component (Path::display() replaces invalid UTF-8
with the replacement character). -/
def compLossy : PComp → String
  | .utf8 s => s
  | .raw _ => "�"

/-- Model of Path::display() used when printing paths into the artifact and
the error log. -/
def displayPath (p : RPath) : String :=
  String.intercalate "/" (p.map compLossy)

/-- Token of a compiled glob pattern: a literal character, the
single-character wildcard or the multi-character wildcard. -/
inductive GlobToken where
  | lit (c : Char)
  | one
  | many
deriving DecidableEq, Repr

/-- Parser for the modelled fragment of globset's Glob::new.  Character
classes, alternation, escapes and the recursive wildcard are outside the
fragment and yield none, as does any genuinely malformed pattern such as an
unclosed character class. -/
def globParseL : List Char → Option (List GlobToken)
  | [] => some []
  | '*' :: rest =>
    match rest with
    | '*' :: _ => none
    | _ => (globParseL rest).map (fun ts => GlobToken.many :: ts)
  | '?' :: rest => (globParseL rest).map (fun ts => GlobToken.one :: ts)
  | c :: rest =>
    if c = '[' ∨ c = ']' ∨ c = '{' ∨ c = '}' ∨ c = '\\' then none
    else (globParseL rest).map (fun ts => GlobToken.lit c :: ts)

/-- Compile one glob pattern string. -/
def globParse (pat : String) : Option (List GlobToken) :=
  globParseL pat.toList

/-- Matcher for a compiled glob against a character list.  The
single-character wildcard consumes exactly one character; the
multi-character wildcard consumes any run of characters, including the path
separator (globset's default: literal_separator is disabled), expressed as
matching the rest of the pattern against some suffix of the text. -/
def globMatchL : List GlobToken → List Char → Bool
  | [], cs => cs.isEmpty
  | .lit _ :: _, [] => false
  | .lit c :: ts', x :: xs => x = c && globMatchL ts' xs
  | .one :: _, [] => false
  | .one :: ts', _ :: xs => globMatchL ts' xs
  | .many :: ts', cs => cs.tails.any (fun suf => globMatchL ts' suf)

/-- Match a compiled glob against the full textual form of a path
(GlobSet::is_match on the path string). -/
def globMatch (ts : List GlobToken) (s : String) : Bool :=
  globMatchL ts s.toList

/-- The DefaultIgnore table of src/src/default_ignore.rs. -/
structure DefaultIgnore where
  ignore_files : List String
  ignore_dirs : List String

/-- The built-in Default instance of DefaultIgnore, entry for entry. -/
def DefaultIgnore.default : DefaultIgnore where
  ignore_dirs := ["node_modules", ".git", ".idea", ".vscode"]
  ignore_files :=
    ["*LICENCE.md", "*CHANGELOG.md", "*.DS_Store", "*.all-contributorsrc",
     "*.yaml", "*.yml", "*.json", "*.csv", "*.svg", "*.conf", "*.ini",
     "*.env", "*.log", "*.tmp", "*.pyc", "*.class", "*.o", "*.obj",
     "*.exe", "*.dll", "*.so", "*.dylib", "*.ncb", "*.sdf", "*.suo",
     "*.pdb", "*.idb", "*.lock", "*.toml", ".prettierrc.*", "*.txt",
     "Pipfile", "*.cfg", ".gitignore", ".gitattributes", ".dockerignore",
     ".env", ".flaskenv", ".editorconfig", "Makefile", "CMakeLists.txt"]

/-- The Cli argument record of src/src/main.rs (the input and output path
fields are orchestration plumbing and do not influence the decision). -/
structure Cli where
  input : RPath
  ignore_files : Option (List String)
  ignore_dirs : Option (List String)
  include_files : Option (List String)
  output : Option RPath
  error_log : Bool

/-- The effective ignore-file list: the defaults extended with the
user-supplied patterns, in that order (the two extend calls in
should_include). -/
def effIgnoreFiles (args : Cli) (config : DefaultIgnore) : List String :=
  config.ignore_files ++ args.ignore_files.getD []

/-- The effective ignore-directory list: defaults then user entries. -/
def effIgnoreDirs (args : Cli) (config : DefaultIgnore) : List String :=
  config.ignore_dirs ++ args.ignore_dirs.getD []

/-- Compile every pattern of the list, failing as soon as one pattern fails
(the loop of Glob::new(pattern).unwrap() calls building the GlobSet). -/
def compileAll : List String → Option (List (List GlobToken))
  | [] => some []
  | pat :: rest =>
    match globParse pat, compileAll rest with
    | some g, some gs => some (g :: gs)
    | _, _ => none

/-- The decision function should_include of src/src/main.rs.  Returns none
where the Rust code panics: when some effective ignore pattern fails glob
compilation.  Otherwise: in include mode the verdict is whether the path
ends with some include entry; in ignore mode the path is excluded when its
text (empty for non-UTF-8 paths, from to_str().unwrap_or_default()) matches
a compiled glob, or the path ends with a literal entry of the ignore-file
list, or some path component equals an ignore-directory entry. -/
def should_include (path : RPath) (args : Cli) (config : DefaultIgnore) :
    Option Bool :=
  let ignoreFiles := effIgnoreFiles args config
  let ignoreDirs := effIgnoreDirs args config
  match compileAll ignoreFiles with
  | none => none
  | some globs =>
    match args.include_files with
    | some incl => some (incl.any (fun f => pathEndsWith path f))
    | none =>
      let pathStr := (pathToStr path).getD ""
      if globs.any (fun g => globMatch g pathStr)
          || ignoreFiles.any (fun f => pathEndsWith path f) then
        some false
      else if ignoreDirs.any (fun d => path.any (fun comp => compMatches comp d)) then
        some false
      else
        some true

/-- One candidate file as the walker yields it: its path together with the
result of std::fs::read_to_string on it (Except.error carries the rendered
io::Error message). -/
structure FileEntry where
  path : RPath
  readResult : Except String String

/-- The externally visible state of one run: the text written to the output
artifact, and the contents of the error log when the error_log option
created one (none when the option is disabled). -/
structure RunState where
  output : String
  errorLog : Option String
deriving DecidableEq

/-- Outcome of one run of main.  configError models the structopt
conflicts_with_all rejection inside Cli::from_args, before anything else
runs; panicked models the Glob::new(...).unwrap() panic inside
should_include aborting the process mid-walk, the partial artifact
persisting on disk. -/
inductive RunOutcome where
  | configError
  | panicked (st : RunState)
  | finished (st : RunState)
deriving DecidableEq

/-- The block appended to the output artifact for one included readable
file: writeln!(output_file, "\n\n// File: {}\n\n{}", path.display(), content)
writes the two leading newlines, the header, a blank line, the contents and
a final newline. -/
def fileBlock (p : RPath) (content : String) : String :=
  "\n\n// File: " ++ displayPath p ++ "\n\n" ++ content ++ "\n"

/-- The line appended to the error log for one unreadable included file
(write_error_to_log in the source). -/
def errLine (p : RPath) (e : String) : String :=
  "Error reading file " ++ displayPath p ++ ": " ++ e ++ "\n"

/-- Process one candidate file of the walk: none models the glob-compilation
panic inside should_include; an excluded file leaves the state unchanged; an
included file either appends its block or, on a read error, appends one log
line when the error log exists and is skipped. -/
def stepFile (args : Cli) (config : DefaultIgnore) (st : RunState)
    (f : FileEntry) : Option RunState :=
  match should_include f.path args config with
  | none => none
  | some false => some st
  | some true =>
    match f.readResult with
    | .ok content => some { st with output := st.output ++ fileBlock f.path content }
    | .error e => some { st with errorLog := st.errorLog.map (fun l => l ++ errLine f.path e) }

/-- The walk of main over the candidate files, threading the run state; a
panic aborts the walk with the partial state. -/
def runFiles (args : Cli) (config : DefaultIgnore) :
    RunState → List FileEntry → RunOutcome
  | st, [] => .finished st
  | st, f :: fs =>
    match stepFile args config st f with
    | none => .panicked st
    | some st' => runFiles args config st' fs

/-- The structopt conflicts_with_all declaration on include_files: the
argument parser rejects the command line when --include-files is present
together with --ignore-files or --ignore-dirs. -/
def cliConflict (args : Cli) : Bool :=
  args.include_files.isSome && (args.ignore_files.isSome || args.ignore_dirs.isSome)

/-- The run of main over a walker-yielded list of candidate files: argument
parsing (with the conflict rejection) happens first; then the output
artifact is created empty, the error log is created exactly when the
error_log flag is set, and the walk runs. -/
def runMain (args : Cli) (config : DefaultIgnore) (files : List FileEntry) :
    RunOutcome :=
  if cliConflict args then .configError
  else runFiles args config
    { output := "", errorLog := cond args.error_log (some "") none } files

/-- Concatenation of output blocks of a file list: one block per included
readable file, in walker order. -/
def blocksOf (args : Cli) (config : DefaultIgnore) : List FileEntry → String
  | [] => ""
  | f :: fs =>
    (if should_include f.path args config = some true then
      match f.readResult with
      | .ok content => fileBlock f.path content
      | .error _ => ""
    else "") ++ blocksOf args config fs

/-- Concatenation of error-log lines of a file list: one line per included
unreadable file, in walker order. -/
def logOf (args : Cli) (config : DefaultIgnore) : List FileEntry → String
  | [] => ""
  | f :: fs =>
    (if should_include f.path args config = some true then
      match f.readResult with
      | .ok _ => ""
      | .error e => errLine f.path e
    else "") ++ logOf args config fs

/-- Content of a readable file entry (used only under a hypothesis that the
entry is readable). -/
def okContent (f : FileEntry) : String :=
  match f.readResult with
  | .ok c => c
  | .error _ => ""

/-- Lines of a string, splitting at every newline character. -/
def linesOf (s : String) : List String :=
  (splitOnChar '\n' s.toList).map (fun l => String.mk l)

/-- Concatenation of a list of strings (used to state the output artifact as
the concatenation of per-file blocks). -/
def concatAll : List String → String
  | [] => ""
  | s :: rest => s ++ concatAll rest

/-- Match of one pattern string against a path text: compile the pattern and
match, false when the pattern does not compile. -/
def patMatch (pat : String) (s : String) : Bool :=
  match globParse pat with
  | some g => globMatch g s
  | none => false

/-- Pure verdict of should_include once glob compilation has succeeded with
the compiled list gs. -/
def verdictPure (p : RPath) (args : Cli) (config : DefaultIgnore)
    (gs : List (List GlobToken)) : Bool :=
  match args.include_files with
  | some incl => incl.any (fun f => pathEndsWith p f)
  | none =>
    !(gs.any (fun g => globMatch g ((pathToStr p).getD ""))
      || (effIgnoreFiles args config).any (fun f => pathEndsWith p f)
      || (effIgnoreDirs args config).any (fun d => p.any (fun comp => compMatches comp d)))

/-- Example argument record with no overrides and the error log disabled,
used by concrete witnesses. -/
def argsPlain : Cli :=
  { input := [], ignore_files := none, ignore_dirs := none,
    include_files := none, output := none, error_log := false }

/-- Example argument record with no overrides and the error log enabled,
used by concrete witnesses. -/
def argsLogOn : Cli :=
  { input := [], ignore_files := none, ignore_dirs := none,
    include_files := none, output := none, error_log := true }

/-- Example empty ignore policy, used by concrete witnesses. -/
def emptyIgnore : DefaultIgnore :=
  { ignore_files := [], ignore_dirs := [] }

theorem compileAll_eq_none_iff (l : List String) :
    compileAll l = none ↔ ∃ pat ∈ l, globParse pat = none := by
  induction l with
  | nil => simp [compileAll]
  | cons pat rest ih =>
    cases hp : globParse pat with
    | none =>
      simp only [compileAll, hp]
      exact ⟨fun _ => ⟨pat, List.mem_cons_self pat rest, hp⟩, fun _ => trivial⟩
    | some g =>
      cases hc : compileAll rest with
      | none =>
        simp only [compileAll, hp, hc]
        refine ⟨fun _ => ?_, fun _ => trivial⟩
        obtain ⟨q, hq, hqn⟩ := ih.mp hc
        exact ⟨q, List.mem_cons_of_mem pat hq, hqn⟩
      | some gs =>
        simp only [compileAll, hp, hc]
        constructor
        · intro h
          simp at h
        · rintro ⟨q, hq, hqn⟩
          rcases List.mem_cons.mp hq with rfl | hq2
          · rw [hp] at hqn
            cases hqn
          · have h2 := ih.mpr ⟨q, hq2, hqn⟩
            rw [hc] at h2
            cases h2

theorem compileAll_any (l : List String) (gs : List (List GlobToken))
    (s : String) (h : compileAll l = some gs) :
    gs.any (fun g => globMatch g s) = l.any (fun pat => patMatch pat s) := by
  induction l generalizing gs with
  | nil =>
    simp only [compileAll] at h
    cases h
    simp
  | cons pat rest ih =>
    cases hp : globParse pat with
    | none =>
      simp only [compileAll, hp] at h
      cases h
    | some g =>
      cases hc : compileAll rest with
      | none =>
        simp only [compileAll, hp, hc] at h
        cases h
      | some gs' =>
        simp only [compileAll, hp, hc] at h
        cases h
        simp [List.any_cons, patMatch, hp, ih gs' hc]

theorem any_congr_mem {α : Type} (l1 l2 : List α) (f : α → Bool)
    (h : ∀ x, x ∈ l1 ↔ x ∈ l2) : l1.any f = l2.any f := by
  cases h1 : l1.any f with
  | true =>
    obtain ⟨x, hx, hfx⟩ := List.any_eq_true.mp h1
    exact (List.any_eq_true.mpr ⟨x, (h x).mp hx, hfx⟩).symm
  | false =>
    cases h2 : l2.any f with
    | false => rfl
    | true =>
      obtain ⟨x, hx, hfx⟩ := List.any_eq_true.mp h2
      have h3 := List.any_eq_true.mpr ⟨x, (h x).mpr hx, hfx⟩
      rw [h1] at h3
      cases h3

theorem should_include_none_of (p : RPath) (args : Cli) (config : DefaultIgnore)
    (h : compileAll (effIgnoreFiles args config) = none) :
    should_include p args config = none := by
  simp only [should_include, h]

theorem should_include_eq (p : RPath) (args : Cli) (config : DefaultIgnore)
    (gs : List (List GlobToken))
    (h : compileAll (effIgnoreFiles args config) = some gs) :
    should_include p args config = some (verdictPure p args config gs) := by
  simp only [should_include, verdictPure, h]
  cases args.include_files with
  | some incl => rfl
  | none =>
    cases hA : gs.any (fun g => globMatch g ((pathToStr p).getD "")) <;>
      cases hB : (effIgnoreFiles args config).any (fun f => pathEndsWith p f) <;>
        cases hC : (effIgnoreDirs args config).any
            (fun d => p.any (fun comp => compMatches comp d)) <;>
          simp [hA, hB, hC]

theorem runFiles_spec (args : Cli) (config : DefaultIgnore)
    (hg : compileAll (effIgnoreFiles args config) ≠ none) (files : List FileEntry) :
    ∀ st : RunState,
      runFiles args config st files =
        .finished { output := st.output ++ blocksOf args config files,
                    errorLog := st.errorLog.map (fun l => l ++ logOf args config files) } := by
  induction files with
  | nil =>
    intro st
    cases st with
    | mk out log =>
      simp only [runFiles, blocksOf, logOf]
      cases log with
      | none => simp [String.append_empty]
      | some l => simp [String.append_empty]
  | cons f fs ih =>
    intro st
    cases hc : compileAll (effIgnoreFiles args config) with
    | none => exact absurd hc hg
    | some gs =>
      have hsi := should_include_eq f.path args config gs hc
      cases hv : verdictPure f.path args config gs with
      | false =>
        rw [hv] at hsi
        simp only [runFiles, stepFile, hsi]
        rw [ih st]
        simp [blocksOf, logOf, hsi, String.empty_append]
      | true =>
        rw [hv] at hsi
        cases hr : f.readResult with
        | ok content =>
          simp only [runFiles, stepFile, hsi, hr]
          rw [ih]
          cases st with
          | mk out log =>
            simp only [blocksOf, logOf, hsi, hr, if_pos rfl]
            cases log with
            | none => simp [String.append_assoc, String.empty_append]
            | some l => simp [String.append_assoc, String.empty_append]
        | error e =>
          simp only [runFiles, stepFile, hsi, hr]
          rw [ih]
          cases st with
          | mk out log =>
            simp only [blocksOf, logOf, hsi, hr, if_pos rfl]
            cases log with
            | none => simp [String.append_assoc, String.empty_append]
            | some l => simp [String.append_assoc, String.empty_append]

theorem runMain_spec (args : Cli) (config : DefaultIgnore) (files : List FileEntry)
    (hcf : cliConflict args = false)
    (hg : compileAll (effIgnoreFiles args config) ≠ none) :
    runMain args config files =
      .finished { output := blocksOf args config files,
                  errorLog := cond args.error_log (some (logOf args config files)) none } := by
  simp only [runMain, hcf]
  rw [runFiles_spec args config hg files]
  cases args.error_log <;> simp [String.empty_append]

theorem blocksOf_append (args : Cli) (config : DefaultIgnore)
    (l1 l2 : List FileEntry) :
    blocksOf args config (l1 ++ l2) =
      blocksOf args config l1 ++ blocksOf args config l2 := by
  induction l1 with
  | nil => simp [blocksOf, String.empty_append]
  | cons f fs ih => simp [blocksOf, ih, String.append_assoc]

theorem logOf_append (args : Cli) (config : DefaultIgnore)
    (l1 l2 : List FileEntry) :
    logOf args config (l1 ++ l2) = logOf args config l1 ++ logOf args config l2 := by
  induction l1 with
  | nil => simp [logOf, String.empty_append]
  | cons f fs ih => simp [logOf, ih, String.append_assoc]

theorem blocksOf_all_ok (args : Cli) (config : DefaultIgnore)
    (files : List FileEntry)
    (hread : ∀ f ∈ files, ∃ c, f.readResult = Except.ok c) :
    blocksOf args config files =
      concatAll ((files.filter (fun f =>
        decide (should_include f.path args config = some true))).map
          (fun f => fileBlock f.path (okContent f))) := by
  induction files with
  | nil => simp [blocksOf, concatAll]
  | cons f fs ih =>
    obtain ⟨c, hc⟩ := hread f (List.mem_cons_self f fs)
    have ih2 := ih (fun g hg => hread g (List.mem_cons_of_mem f hg))
    by_cases hinc : should_include f.path args config = some true
    · simp [blocksOf, List.filter_cons, hinc, hc, concatAll, ih2, okContent]
    · simp [blocksOf, List.filter_cons, hinc, hc, concatAll, ih2, String.empty_append]

theorem logOf_all_ok (args : Cli) (config : DefaultIgnore)
    (files : List FileEntry)
    (hread : ∀ f ∈ files, ∃ c, f.readResult = Except.ok c) :
    logOf args config files = "" := by
  induction files with
  | nil => simp [logOf]
  | cons f fs ih =>
    obtain ⟨c, hc⟩ := hread f (List.mem_cons_self f fs)
    have ih2 := ih (fun g hg => hread g (List.mem_cons_of_mem f hg))
    by_cases hinc : should_include f.path args config = some true <;>
      simp [logOf, hinc, hc, ih2, String.empty_append]

/-- C1: in IncludeOnly mode (an include_files list was supplied), the
decision returns Include exactly when the candidate path ends with (as a
path-suffix match) some entry of the include list, and the ignore lists,
including the built-in defaults, have zero effect on the verdict: any two
validated rule sets carrying the same include list decide every path
identically. -/
theorem includeOnly_mode_decision (p : RPath) (args1 args2 : Cli)
    (cfg1 cfg2 : DefaultIgnore) (incl : List String)
    (h1 : args1.include_files = some incl)
    (h2 : args2.include_files = some incl)
    (hg1 : compileAll (effIgnoreFiles args1 cfg1) ≠ none)
    (hg2 : compileAll (effIgnoreFiles args2 cfg2) ≠ none) :
    should_include p args1 cfg1 = some (incl.any (fun f => pathEndsWith p f)) ∧
    should_include p args1 cfg1 = should_include p args2 cfg2 := by
  cases hc1 : compileAll (effIgnoreFiles args1 cfg1) with
  | none => exact absurd hc1 hg1
  | some gs1 =>
    cases hc2 : compileAll (effIgnoreFiles args2 cfg2) with
    | none => exact absurd hc2 hg2
    | some gs2 =>
      rw [should_include_eq p args1 cfg1 gs1 hc1, should_include_eq p args2 cfg2 gs2 hc2]
      constructor <;> simp only [verdictPure, h1, h2]

/-- Witness for C1: with include list ["main.go"], the path src/main.go is
included, and the verdict is the same under the full built-in default ignore
policy and under an empty ignore policy extended with a user ignore list
that would otherwise exclude the file. -/
theorem includeOnly_mode_decision_witness :
    should_include [PComp.utf8 "src", PComp.utf8 "main.go"]
        { input := [], ignore_files := none, ignore_dirs := none,
          include_files := some ["main.go"], output := none, error_log := false }
        DefaultIgnore.default =
      some (["main.go"].any (fun f =>
        pathEndsWith [PComp.utf8 "src", PComp.utf8 "main.go"] f)) ∧
    should_include [PComp.utf8 "src", PComp.utf8 "main.go"]
        { input := [], ignore_files := none, ignore_dirs := none,
          include_files := some ["main.go"], output := none, error_log := false }
        DefaultIgnore.default =
      should_include [PComp.utf8 "src", PComp.utf8 "main.go"]
        { input := [], ignore_files := some ["*.go"], ignore_dirs := none,
          include_files := some ["main.go"], output := none, error_log := false }
        { ignore_files := [], ignore_dirs := [] } :=
  includeOnly_mode_decision [PComp.utf8 "src", PComp.utf8 "main.go"] _ _ _ _
    ["main.go"] rfl rfl (by decide) (by decide)

/-- C2: in IgnoreBased mode, a path whose full textual form matches a
compiled glob of the effective ignore-file list, or which ends with an entry
of that list taken as a literal path suffix, is excluded. -/
theorem ignoreBased_glob_or_suffix_excludes (p : RPath) (args : Cli)
    (config : DefaultIgnore) (gs : List (List GlobToken))
    (hmode : args.include_files = none)
    (hg : compileAll (effIgnoreFiles args config) = some gs)
    (hmatch : gs.any (fun g => globMatch g ((pathToStr p).getD "")) = true
      ∨ (effIgnoreFiles args config).any (fun f => pathEndsWith p f) = true) :
    should_include p args config = some false := by
  rw [should_include_eq p args config gs hg]
  simp only [verdictPure, hmode]
  rcases hmatch with h | h <;> simp [h]

/-- Witness for C2: with the single pattern *.log the path src/app.log is
excluded (its text matches the glob, the wildcard crossing the separator). -/
theorem ignoreBased_glob_or_suffix_excludes_witness :
    should_include [PComp.utf8 "src", PComp.utf8 "app.log"]
        { input := [], ignore_files := none, ignore_dirs := none,
          include_files := none, output := none, error_log := false }
        { ignore_files := ["*.log"], ignore_dirs := [] } = some false :=
  ignoreBased_glob_or_suffix_excludes _ _ _
    [[GlobToken.many, GlobToken.lit '.', GlobToken.lit 'l',
      GlobToken.lit 'o', GlobToken.lit 'g']]
    rfl (by decide) (Or.inl (by decide))

/-- C3: in IgnoreBased mode, a path one of whose components equals, exactly
and case-sensitively, an entry of the effective ignore-directory list is
excluded, whatever its file name and at whatever depth the component sits. -/
theorem ignoreBased_dir_component_excludes (p : RPath) (args : Cli)
    (config : DefaultIgnore) (gs : List (List GlobToken))
    (hmode : args.include_files = none)
    (hg : compileAll (effIgnoreFiles args config) = some gs)
    (hdir : (effIgnoreDirs args config).any
      (fun d => p.any (fun comp => compMatches comp d)) = true) :
    should_include p args config = some false := by
  rw [should_include_eq p args config gs hg]
  simp only [verdictPure, hmode]
  simp [hdir]

/-- Witness for C3: src/node_modules/lib/index.js is excluded by the
node_modules entry of the built-in default directory list, two levels deep
and with a file name that no ignore rule mentions. -/
theorem ignoreBased_dir_component_excludes_witness :
    should_include
        [PComp.utf8 "src", PComp.utf8 "node_modules",
         PComp.utf8 "lib", PComp.utf8 "index.js"]
        { input := [], ignore_files := none, ignore_dirs := none,
          include_files := none, output := none, error_log := false }
        DefaultIgnore.default = some false :=
  ignoreBased_dir_component_excludes _ _ _
    ((compileAll (effIgnoreFiles
      { input := [], ignore_files := none, ignore_dirs := none,
        include_files := none, output := none, error_log := false }
      DefaultIgnore.default)).getD [])
    rfl (by decide) (by decide)

/-- C4: in IgnoreBased mode, a path matching no compiled glob, ending with
no literal entry of the effective ignore-file list and having no component
in the effective ignore-directory list is included. -/
theorem ignoreBased_no_match_includes (p : RPath) (args : Cli)
    (config : DefaultIgnore) (gs : List (List GlobToken))
    (hmode : args.include_files = none)
    (hg : compileAll (effIgnoreFiles args config) = some gs)
    (hnoglob : gs.any (fun g => globMatch g ((pathToStr p).getD "")) = false)
    (hnosuffix : (effIgnoreFiles args config).any (fun f => pathEndsWith p f) = false)
    (hnodir : (effIgnoreDirs args config).any
      (fun d => p.any (fun comp => compMatches comp d)) = false) :
    should_include p args config = some true := by
  rw [should_include_eq p args config gs hg]
  simp only [verdictPure, hmode]
  simp [hnoglob, hnosuffix, hnodir]

/-- Witness for C4: with the full built-in default policy and no overrides,
the path src/main.go is included. -/
theorem ignoreBased_no_match_includes_witness :
    should_include [PComp.utf8 "src", PComp.utf8 "main.go"]
        { input := [], ignore_files := none, ignore_dirs := none,
          include_files := none, output := none, error_log := false }
        DefaultIgnore.default = some true :=
  ignoreBased_no_match_includes _ _ _
    ((compileAll (effIgnoreFiles
      { input := [], ignore_files := none, ignore_dirs := none,
        include_files := none, output := none, error_log := false }
      DefaultIgnore.default)).getD [])
    rfl (by decide) (by decide) (by decide) (by decide)

/-- C7: the decision depends on the effective ignore lists only through
their members: two configurations whose effective ignore-file lists hold
the same entries (in any order, with any duplication) and likewise for the
effective ignore-directory lists, and which agree on the include list,
decide every candidate path identically. -/
theorem decision_order_invariant (p : RPath) (args1 args2 : Cli)
    (cfg1 cfg2 : DefaultIgnore)
    (hIncl : args1.include_files = args2.include_files)
    (hFiles : ∀ x, x ∈ effIgnoreFiles args1 cfg1 ↔ x ∈ effIgnoreFiles args2 cfg2)
    (hDirs : ∀ x, x ∈ effIgnoreDirs args1 cfg1 ↔ x ∈ effIgnoreDirs args2 cfg2) :
    should_include p args1 cfg1 = should_include p args2 cfg2 := by
  cases hc1 : compileAll (effIgnoreFiles args1 cfg1) with
  | none =>
    obtain ⟨pat, hpat, hbad⟩ := (compileAll_eq_none_iff _).mp hc1
    have hc2 : compileAll (effIgnoreFiles args2 cfg2) = none :=
      (compileAll_eq_none_iff _).mpr ⟨pat, (hFiles pat).mp hpat, hbad⟩
    rw [should_include_none_of p args1 cfg1 hc1, should_include_none_of p args2 cfg2 hc2]
  | some gs1 =>
    cases hc2 : compileAll (effIgnoreFiles args2 cfg2) with
    | none =>
      obtain ⟨pat, hpat, hbad⟩ := (compileAll_eq_none_iff _).mp hc2
      have hc1b : compileAll (effIgnoreFiles args1 cfg1) = none :=
        (compileAll_eq_none_iff _).mpr ⟨pat, (hFiles pat).mpr hpat, hbad⟩
      rw [hc1b] at hc1
      cases hc1
    | some gs2 =>
      rw [should_include_eq p args1 cfg1 gs1 hc1, should_include_eq p args2 cfg2 gs2 hc2]
      simp only [verdictPure, hIncl]
      cases args2.include_files with
      | some incl => rfl
      | none =>
        have hglob : (gs1.any fun g => globMatch g ((pathToStr p).getD "")) =
            (gs2.any fun g => globMatch g ((pathToStr p).getD "")) := by
          rw [compileAll_any _ gs1 _ hc1, compileAll_any _ gs2 _ hc2]
          exact any_congr_mem _ _ _ hFiles
        have hsuf : ((effIgnoreFiles args1 cfg1).any fun f => pathEndsWith p f) =
            ((effIgnoreFiles args2 cfg2).any fun f => pathEndsWith p f) :=
          any_congr_mem _ _ _ hFiles
        have hdir : ((effIgnoreDirs args1 cfg1).any
              fun d => p.any fun comp => compMatches comp d) =
            ((effIgnoreDirs args2 cfg2).any
              fun d => p.any fun comp => compMatches comp d) :=
          any_congr_mem _ _ _ hDirs
        rw [hglob, hsuf, hdir]

/-- Witness for C7: the same two ignore-file entries and the same two
ignore-directory names, split differently between the default table and the
user override and listed in reversed orders, give the same verdict on
src/app.log. -/
theorem decision_order_invariant_witness :
    should_include [PComp.utf8 "src", PComp.utf8 "app.log"]
        { input := [], ignore_files := some ["a.txt"], ignore_dirs := none,
          include_files := none, output := none, error_log := false }
        { ignore_files := ["*.log"], ignore_dirs := ["d1", "d2"] } =
      should_include [PComp.utf8 "src", PComp.utf8 "app.log"]
        { input := [], ignore_files := none, ignore_dirs := some ["d1"],
          include_files := none, output := none, error_log := false }
        { ignore_files := ["a.txt", "*.log"], ignore_dirs := ["d2"] } :=
  decision_order_invariant [PComp.utf8 "src", PComp.utf8 "app.log"] _ _ _ _ rfl
    (by
      intro x
      simp only [effIgnoreFiles, Option.getD, List.mem_append, List.mem_cons,
        List.mem_singleton, List.not_mem_nil]
      tauto)
    (by
      intro x
      simp only [effIgnoreDirs, Option.getD, List.mem_append, List.mem_cons,
        List.mem_singleton, List.not_mem_nil]
      tauto)

/-- C10: a candidate path with no valid UTF-8 textual form still gets a
verdict (the decision is total once the patterns compile): the glob check
runs on the empty string in its place, so in IgnoreBased mode such a path is
excluded exactly when a compiled glob matches the empty string, or the
literal-suffix rule fires, or the directory-component rule fires. -/
theorem non_utf8_path_total_decision (p : RPath) (args : Cli)
    (config : DefaultIgnore) (gs : List (List GlobToken))
    (hmode : args.include_files = none)
    (hg : compileAll (effIgnoreFiles args config) = some gs)
    (hnoutf8 : pathToStr p = none) :
    should_include p args config =
      some (!(gs.any (fun g => globMatch g "")
        || (effIgnoreFiles args config).any (fun f => pathEndsWith p f)
        || (effIgnoreDirs args config).any
            (fun d => p.any (fun comp => compMatches comp d)))) := by
  rw [should_include_eq p args config gs hg]
  simp only [verdictPure, hmode, hnoutf8, Option.getD_none]

/-- Witness for C10: a path whose single component is the invalid byte 0xFF
gets the verdict Include under a policy with the pattern *.log (which does
not match the empty string) and no other rules. -/
theorem non_utf8_path_total_decision_witness :
    should_include [PComp.raw [255]]
        { input := [], ignore_files := none, ignore_dirs := none,
          include_files := none, output := none, error_log := false }
        { ignore_files := ["*.log"], ignore_dirs := [] } =
      some (!([[GlobToken.many, GlobToken.lit '.', GlobToken.lit 'l',
          GlobToken.lit 'o', GlobToken.lit 'g']].any (fun g => globMatch g "")
        || (effIgnoreFiles
            { input := [], ignore_files := none, ignore_dirs := none,
              include_files := none, output := none, error_log := false }
            { ignore_files := ["*.log"], ignore_dirs := [] }).any
              (fun f => pathEndsWith [PComp.raw [255]] f)
        || (effIgnoreDirs
            { input := [], ignore_files := none, ignore_dirs := none,
              include_files := none, output := none, error_log := false }
            { ignore_files := ["*.log"], ignore_dirs := [] }).any
              (fun d => ([PComp.raw [255]] : RPath).any
                (fun comp => compMatches comp d)))) :=
  non_utf8_path_total_decision [PComp.raw [255]] _ _
    [[GlobToken.many, GlobToken.lit '.', GlobToken.lit 'l',
      GlobToken.lit 'o', GlobToken.lit 'g']]
    rfl (by decide) (by decide)

/-- C6: supplying an include-files list together with an ignore-files or an
ignore-dirs list is rejected by the argument parser (the conflicts_with_all
declaration on include_files) before anything else runs: the run ends in
the configuration-error outcome, in which no decision is evaluated and no
output is produced, whatever the candidate files. -/
theorem conflicting_options_rejected (args : Cli) (config : DefaultIgnore)
    (files : List FileEntry) (incl : List String)
    (hinc : args.include_files = some incl)
    (hign : args.ignore_files.isSome = true ∨ args.ignore_dirs.isSome = true) :
    runMain args config files = .configError := by
  have hc : cliConflict args = true := by
    unfold cliConflict
    rw [hinc]
    rcases hign with h | h <;> simp [h]
  simp [runMain, hc]

/-- Witness for C6: include-files together with ignore-files on a one-file
walk is rejected as a configuration error. -/
theorem conflicting_options_rejected_witness :
    runMain
        { input := [], ignore_files := some ["*.log"], ignore_dirs := none,
          include_files := some ["main.go"], output := none, error_log := false }
        DefaultIgnore.default
        [{ path := [PComp.utf8 "src", PComp.utf8 "main.go"],
           readResult := Except.ok "fn" }] = .configError :=
  conflicting_options_rejected _ DefaultIgnore.default _ ["main.go"] rfl
    (Or.inl rfl)

/-- C8: an included file whose contents cannot be read is skipped and the
run continues and finishes: the file contributes no block to the output
artifact, exactly one line Error reading file <path>: <error> is appended
to the error log when the error-log option is on and nothing is recorded
when it is off, and the outcome is the same successful outcome either way. -/
theorem read_error_skip_and_log (args : Cli) (config : DefaultIgnore)
    (pre post : List FileEntry) (p : RPath) (e : String)
    (hcf : cliConflict args = false)
    (hg : compileAll (effIgnoreFiles args config) ≠ none)
    (hinc : should_include p args config = some true) :
    runMain args config (pre ++ { path := p, readResult := Except.error e } :: post) =
      .finished { output := blocksOf args config pre ++ blocksOf args config post,
                  errorLog := cond args.error_log
                    (some (logOf args config pre ++
                      (errLine p e ++ logOf args config post))) none } := by
  rw [runMain_spec args config _ hcf hg, blocksOf_append, logOf_append]
  simp [blocksOf, logOf, hinc, String.empty_append]

/-- Witness for C8: a one-file walk whose only file is included but
unreadable finishes with an empty artifact and, the option being on, an
error log holding exactly the one line for that file. -/
theorem read_error_skip_and_log_witness :
    runMain argsLogOn emptyIgnore
        ([] ++ { path := [PComp.utf8 "f.txt"],
                 readResult := Except.error "Permission denied (os error 13)" } :: []) =
      .finished { output := (blocksOf argsLogOn emptyIgnore [] ++
                    blocksOf argsLogOn emptyIgnore []),
                  errorLog := (cond argsLogOn.error_log
                    (some (logOf argsLogOn emptyIgnore [] ++
                      (errLine [PComp.utf8 "f.txt"]
                          "Permission denied (os error 13)" ++
                        logOf argsLogOn emptyIgnore []))) none) } :=
  read_error_skip_and_log argsLogOn emptyIgnore [] [] [PComp.utf8 "f.txt"]
    "Permission denied (os error 13)" rfl (by decide) (by decide)

/-- Counterexample to C5 as stated: the user pattern [ is malformed (an
unclosed character class fails glob compilation), yet a run whose walk
yields no candidate file is not rejected at all: it completes successfully
with an empty artifact.  Glob compilation happens inside should_include,
once per candidate file during traversal, so nothing is surfaced before
traversal and nothing at all on an empty walk. -/
theorem malformed_glob_silent_on_empty_walk :
    globParse "[" = none ∧
    runMain { input := [], ignore_files := some ["["], ignore_dirs := none,
              include_files := none, output := none, error_log := false }
        emptyIgnore [] =
      .finished { output := "", errorLog := none } :=
  ⟨rfl, rfl⟩

/-- C5 amended: a malformed pattern in the effective ignore-file list is
fatal for the run rather than a per-file skip, but only once the walk
yields a candidate file: at the first inclusion decision the run aborts by
panic, with the output artifact already created and still empty as the
partial result; the error surfaces during traversal, not before it, and on
a walk with no candidate files it never surfaces. -/
theorem malformed_glob_panics_at_first_file (args : Cli) (config : DefaultIgnore)
    (pat : String) (f : FileEntry) (fs : List FileEntry)
    (hcf : cliConflict args = false)
    (hpat : pat ∈ effIgnoreFiles args config)
    (hbad : globParse pat = none) :
    runMain args config (f :: fs) =
      .panicked { output := "", errorLog := cond args.error_log (some "") none } := by
  have hc : compileAll (effIgnoreFiles args config) = none :=
    (compileAll_eq_none_iff _).mpr ⟨pat, hpat, hbad⟩
  have hsi := should_include_none_of f.path args config hc
  simp [runMain, hcf, runFiles, stepFile, hsi]

/-- Witness for the amended C5: with the malformed user pattern [ and a
one-file walk, the run panics at that first file with the artifact empty. -/
theorem malformed_glob_panics_at_first_file_witness :
    runMain { input := [], ignore_files := some ["["], ignore_dirs := none,
              include_files := none, output := none, error_log := false }
        emptyIgnore
        [{ path := [PComp.utf8 "a.go"], readResult := Except.ok "x" }] =
      .panicked { output := "", errorLog := cond false (some "") none } :=
  malformed_glob_panics_at_first_file _ emptyIgnore "["
    { path := [PComp.utf8 "a.go"], readResult := Except.ok "x" } [] rfl
    (by decide) rfl

/-- Counterexample to C9 as stated: the run over the single included file
a.go with contents x yields the artifact whose line decomposition is two
blank lines, the header, one blank line, the contents, and the final
newline: the header is preceded by exactly two blank lines, not exactly one
as the claim requires. -/
theorem output_block_two_blank_lines :
    runMain argsPlain emptyIgnore
        [{ path := [PComp.utf8 "a.go"], readResult := Except.ok "x" }] =
      .finished { output := "\n\n// File: a.go\n\nx\n", errorLog := none } ∧
    linesOf "\n\n// File: a.go\n\nx\n" = ["", "", "// File: a.go", "", "x", ""] ∧
    linesOf "\n\n// File: a.go\n\nx\n" ≠ ["", "// File: a.go", "", "x", ""] :=
  ⟨by decide, by decide, by decide⟩

/-- C9 amended: over a walk whose candidate files are all readable, the run
finishes and the output artifact is exactly the concatenation, in
walker-yield order, of one block per included file, each block being the
literal text of two newlines, the header line // File: <path>, a blank
line, the raw contents and a terminating newline — so the header is
followed by exactly one blank line but preceded by two newline characters
(two blank lines in the artifact), not one. -/
theorem output_blocks_in_walk_order (args : Cli) (config : DefaultIgnore)
    (files : List FileEntry)
    (hcf : cliConflict args = false)
    (hg : compileAll (effIgnoreFiles args config) ≠ none)
    (hread : ∀ f ∈ files, ∃ c, f.readResult = Except.ok c) :
    runMain args config files =
      .finished { output := concatAll ((files.filter (fun f =>
                    decide (should_include f.path args config = some true))).map
                      (fun f => "\n\n// File: " ++ displayPath f.path ++ "\n\n" ++
                        okContent f ++ "\n")),
                  errorLog := cond args.error_log (some "") none } := by
  rw [runMain_spec args config files hcf hg, logOf_all_ok args config files hread,
    blocksOf_all_ok args config files hread]
  rfl

/-- Witness for the amended C9: a two-file walk produces the two blocks in
walker order, b.rs before a.rs. -/
theorem output_blocks_in_walk_order_witness :
    runMain argsPlain emptyIgnore
        [{ path := [PComp.utf8 "b.rs"], readResult := Except.ok "B" },
         { path := [PComp.utf8 "a.rs"], readResult := Except.ok "A" }] =
      .finished { output := concatAll ((([{ path := [PComp.utf8 "b.rs"], readResult := Except.ok "B" }, { path := [PComp.utf8 "a.rs"], readResult := Except.ok "A" }] : List FileEntry).filter
                    (fun f => decide (should_include f.path argsPlain emptyIgnore =
                      some true))).map
                      (fun f => "\n\n// File: " ++ displayPath f.path ++ "\n\n" ++
                        okContent f ++ "\n")),
                  errorLog := cond argsPlain.error_log (some "") none } :=
  output_blocks_in_walk_order argsPlain emptyIgnore
    [{ path := [PComp.utf8 "b.rs"], readResult := Except.ok "B" },
     { path := [PComp.utf8 "a.rs"], readResult := Except.ok "A" }] rfl (by decide)
    (by
      intro f hf
      rcases List.mem_cons.mp hf with h | hf2
      · exact ⟨"B", by rw [h]⟩
      · rcases List.mem_cons.mp hf2 with h | hf3
        · exact ⟨"A", by rw [h]⟩
        · exact absurd hf3 (List.not_mem_nil f))
